import Mathlib

/-!
Verification of the LoRa network-server MAC core (loraMac.py).

Shallow embedding conventions:
* Byte strings are `List Nat` (each produced byte is masked with `&&& 255`
  exactly where the source masks it).
* The AES block cipher and AES-CMAC come from an external library
  (CryptoPlus); they are parameters of the embedding.  `GoodCipher e d`
  states that `e`/`d` are the mutually inverse, length-preserving
  encrypt/decrypt transforms of a 16-byte block cipher.
* A Python function that can raise an uncaught exception (an `assert`
  failure, `struct.error`, `IndexError`, `StopIteration`, a format
  `TypeError`) is embedded with an explicit failure value (`Option` or a
  dedicated result constructor).
* Python dicts are association lists in insertion order (`mapInsert`
  replaces in place like dict assignment); `random.randint` draws are
  supplied as an explicit stream, and the unbounded retry loop of
  `genDevAddr` is given fuel.
* Frequencies (Python floats) are modelled as exact rationals, and the
  Python 2 `round` (half away from zero, used by the channel arithmetic)
  as `pyRound`.
-/

namespace LoRaServer

/-- LoRaMacCrypto.CRYPTO_BLOCK_SIZE -/
def CRYPTO_BLOCK_SIZE : Nat := 16

/-- loraMac.DOWNLINK_QUEUE_MAX_SIZE -/
def DOWNLINK_QUEUE_MAX_SIZE : Nat := 32

/-- The buffer computed by `padToBlockSize` before its assertion runs:
the source appends `[0] * (16 - len(byteStr))` zero bytes whenever the
length is not a multiple of 16 (note: NOT `16 - len % 16`; for a Python
negative repeat count the appended list is empty, which Nat subtraction
models exactly). -/
def padRaw (b : List Nat) : List Nat :=
  if b.length % CRYPTO_BLOCK_SIZE ≠ 0 then
    b ++ List.replicate (CRYPTO_BLOCK_SIZE - b.length) 0
  else
    b

/-- LoRaMacCrypto.padToBlockSize: returns the padded buffer; `none`
models the AssertionError raised by `assert(len(buf) % 16 == 0)`. -/
def padToBlockSize (b : List Nat) : Option (List Nat) :=
  if (padRaw b).length % CRYPTO_BLOCK_SIZE = 0 then some (padRaw b) else none

/-- Chunked application of a block transform, with explicit fuel to keep
the recursion structural (the fuel is always at least the buffer length,
and each step drops 16 bytes). -/
def ecbChunks (f : List Nat → List Nat) : Nat → List Nat → List Nat
  | _, [] => []
  | 0, _ :: _ => []
  | fuel + 1, b :: t => f ((b :: t).take 16) ++ ecbChunks f fuel ((b :: t).drop 16)

/-- AES-ECB over a whole buffer: apply the block transform `f` to each
successive 16-byte chunk (the CryptoPlus ECB mode applied to a buffer
whose length is a multiple of the block size). -/
def ecbMap (f : List Nat → List Nat) (l : List Nat) : List Nat :=
  ecbChunks f l.length l

/-- `e`/`d` form the AES-128 encrypt/decrypt pair: on 16-byte blocks they
preserve length and are mutually inverse, for every key. -/
def GoodCipher (e d : List Nat → List Nat → List Nat) : Prop :=
  ∀ k b, b.length = 16 →
    (e k b).length = 16 ∧ (d k b).length = 16 ∧ d k (e k b) = b ∧ e k (d k b) = b

/-- LoRaMacCrypto.computeJoinMic: AES-CMAC with the root key, truncated to
the first 4 bytes.  `cmac` is the external CMAC primitive (key, message). -/
def computeJoinMic (cmac : List Nat → List Nat → List Nat)
    (key msg : List Nat) : List Nat :=
  (cmac key msg).take 4

/-- LoRaMacCrypto.encryptJoinAccept: pad, then apply the AES-ECB DECRYPT
transform with the root key (the inversion is deliberate in the source).
`none` models the padding assertion failing. -/
def encryptJoinAccept (d : List Nat → List Nat → List Nat)
    (key b : List Nat) : Option (List Nat) :=
  (padToBlockSize b).map (ecbMap (d key))

/-- LoRaMacCrypto.deriveSessionKey: pad, then apply the AES-ECB encrypt
transform with the root key. -/
def deriveSessionKey (e : List Nat → List Nat → List Nat)
    (key b : List Nat) : Option (List Nat) :=
  (padToBlockSize b).map (ecbMap (e key))

/-- The 16-byte key-derivation block built in LoRaMac.handleJoinRequest:
prefix byte, then AppNonce (3 bytes LE), NetID (3 bytes LE), DevNonce
(2 bytes LE), then 7 zero bytes. -/
def sessionKeyBlock (pfx appNonce netID devNonce : Nat) : List Nat :=
  [pfx,
   appNonce &&& 0xFF, (appNonce >>> 8) &&& 0xFF, (appNonce >>> 16) &&& 0xFF,
   netID &&& 0xFF, (netID >>> 8) &&& 0xFF, (netID >>> 16) &&& 0xFF,
   devNonce &&& 0xFF, (devNonce >>> 8) &&& 0xFF,
   0, 0, 0, 0, 0, 0, 0]

/-- Substring test on character lists, modelling the Python `in` operator
on strings ("500" in ulDatarate). -/
def strHasSub (needle : List Char) : List Char → Bool
  | [] => needle.isEmpty
  | c :: t => needle.isPrefixOf (c :: t) || strHasSub needle t

/-- The `"500" in ulDatarate` test in LoRaMac.getUplinkChannelFromFreq. -/
def hasSub500 (s : String) : Bool := strHasSub ['5', '0', '0'] s.toList

/-- Python 2 `round`: round half away from zero
(for negative q, ceil(q - 1/2) = -floor(-q + 1/2)). -/
def pyRound (q : ℚ) : ℤ :=
  if 0 ≤ q then (q + 1/2).floor else -(((-q) + 1/2).floor)

def UPSTREAM_BW125_LOWEST_FREQ_MHZ : ℚ := 9023/10

def UPSTREAM_BW125_SPACING_MHZ : ℚ := 2/10

def UPSTREAM_BW125_NUM_CHAN : ℤ := 64

def UPSTREAM_BW500_LOWEST_FREQ_MHZ : ℚ := 903

def UPSTREAM_BW500_SPACING_MHZ : ℚ := 16/10

def UPSTREAM_BW500_NUM_CHAN : ℤ := 8

def DOWNSTREAM_BW500_LOWEST_FREQ_MHZ : ℚ := 9233/10

def DOWNSTREAM_BW500_SPACING_MHZ : ℚ := 6/10

def DOWNSTREAM_BW500_NUM_CHAN : ℤ := 8

/-- LoRaMac.getUplinkChannelFromFreq.  Python `%` on a positive modulus is
`Int.emod` (result in `[0, n)`). -/
def getUplinkChannelFromFreq (ulDatarate : String) (ulFreqMHz : ℚ) : ℤ :=
  if hasSub500 ulDatarate then
    (pyRound ((ulFreqMHz - UPSTREAM_BW500_LOWEST_FREQ_MHZ) /
        UPSTREAM_BW500_SPACING_MHZ)).emod UPSTREAM_BW500_NUM_CHAN
  else
    (pyRound ((ulFreqMHz - UPSTREAM_BW125_LOWEST_FREQ_MHZ) /
        UPSTREAM_BW125_SPACING_MHZ)).emod UPSTREAM_BW125_NUM_CHAN

/-- LoRaMac.getRxWindow1Freq. -/
def getRxWindow1Freq (ulChannel : ℤ) : ℚ :=
  DOWNSTREAM_BW500_LOWEST_FREQ_MHZ +
    ((ulChannel.emod DOWNSTREAM_BW500_NUM_CHAN : ℤ) : ℚ) *
      DOWNSTREAM_BW500_SPACING_MHZ

/-- LoRaMac.getRxWindow1DataRate: the source hard-codes the single mapping
and runs `assert(ulDatarate == 'SF10BW125')`; `none` models the
AssertionError raised for any other datarate. -/
def getRxWindow1DataRate (ulDatarate : String) : Option String :=
  if ulDatarate = "SF10BW125" then some "SF10BW500" else none

def RX_WINDOW_1 : Nat := 1

def RX_WINDOW_2 : Nat := 2

def JOIN_ACCEPT_WINDOW_1 : Nat := 3

def JOIN_ACCEPT_WINDOW_2 : Nat := 4

def MTYPE_JOIN_REQUEST : Nat := 0

def MTYPE_JOIN_ACCEPT : Nat := 1

def MTYPE_UNCONFIRMED_DATA_UP : Nat := 2

def MAJOR_VERSION_LORAWAN : Nat := 0

/-- DownlinkMessage: the source stores the base64 encoding of the payload;
since base64 is an external stdlib bijection we keep the raw bytes. -/
structure DownlinkMessage where
  payloadSize : Nat
  rxWindow : Nat
  payloadData : List Nat
deriving DecidableEq

/-- DownlinkMessage.__init__. -/
def mkDownlinkMessage (payload : List Nat) (rxWindow : Nat) : DownlinkMessage :=
  ⟨payload.length, rxWindow, payload⟩

/-- LoRaEndDevice mutable state (the per-device RLock and logger are not
data; the root-key crypto object is represented by `appKey` itself, which
is what keys every primitive). -/
structure EndDevice where
  dlModulation : String
  dlIpol : Bool
  rx2FreqMHz : ℚ
  rx2Datarate : String
  rx2Codingrate : String
  receiveDelay1_usec : Nat
  joinAcceptDelay1_usec : Nat
  joinAcceptDelay2_usec : Nat
  appEUI : Nat
  devEUI : Nat
  appKey : List Nat
  devAddr : Option Nat
  nwkSKey : List Nat
  appSKey : List Nat
  joined : Bool
  gateways : List Nat
  dlQueue : List DownlinkMessage
deriving DecidableEq

/-- LoRaEndDevice.__init__ defaults. -/
def mkEndDevice (appEUI devEUI : Nat) (appKey : List Nat) : EndDevice :=
  ⟨"LORA", true, 9233/10, "SF10BW500", "4/5", 1000000, 5000000, 6000000,
   appEUI, devEUI, appKey, none, [], [], false, [], []⟩

/-- LoRaEndDevice.setSessionKeys (the crypto-object half is a `pass`). -/
def setSessionKeys (dev : EndDevice) (nwk app : List Nat) : EndDevice :=
  { dev with nwkSKey := nwk, appSKey := app }

/-- LoRaEndDevice.getRxWindowDelayUsec (the unknown-window branch logs a
warning and falls back to the first-window delay). -/
def getRxWindowDelayUsec (dev : EndDevice) (rxWindow : Nat) : Nat :=
  if rxWindow = RX_WINDOW_1 then dev.receiveDelay1_usec
  else if rxWindow = RX_WINDOW_2 then dev.receiveDelay1_usec + 1000000
  else if rxWindow = JOIN_ACCEPT_WINDOW_1 then dev.joinAcceptDelay1_usec
  else if rxWindow = JOIN_ACCEPT_WINDOW_2 then dev.joinAcceptDelay2_usec
  else dev.receiveDelay1_usec

/-- LoRaEndDevice.putDownlinkMsg: append on a `deque(maxlen=32)`; when the
deque is full the oldest (leftmost) entry is silently evicted. -/
def putDownlinkMsg {α : Type} (q : List α) (m : α) : List α :=
  let q2 := q ++ [m]
  q2.drop (q2.length - DOWNLINK_QUEUE_MAX_SIZE)

/-- Python set.add on a set modelled as a duplicate-free list. -/
def setAdd (s : List Nat) (x : Nat) : List Nat := if x ∈ s then s else s ++ [x]

/-- Python dict lookup on an insertion-ordered association list. -/
def mapGet {α β : Type} [DecidableEq α] : List (α × β) → α → Option β
  | [], _ => none
  | (k', v) :: t, k => if k' = k then some v else mapGet t k

/-- Python dict assignment: replace in place if the key is present,
otherwise append. -/
def mapInsert {α β : Type} [DecidableEq α] : List (α × β) → α → β → List (α × β)
  | [], k, v => [(k, v)]
  | (k', v') :: t, k, v =>
    if k' = k then (k, v) :: t else (k', v') :: mapInsert t k v

/-- The keys of an association list are pairwise distinct (a dict model
invariant). -/
def keysNodup {α β : Type} (m : List (α × β)) : Prop :=
  (m.map Prod.fst).Nodup

/-- Little-endian byte decoding (struct.unpack. -/
def leNat : List Nat → Nat
  | [] => 0
  | b :: t => b + 256 * leNat t

/-- LoRaMac registry and configuration state.  The Python maps hold object
references to the same device; we let `euiToDevMap` own the device records
and let `addrToDevMap` map an address to the owning (appEUI, devEUI) key. -/
structure MacState where
  networkID : Nat
  netID : Nat
  sendConfigured : Bool
  euiToDevMap : List ((Nat × Nat) × EndDevice)
  addrToDevMap : List (Nat × (Nat × Nat))
deriving DecidableEq

/-- LoRaMac.__init__: the network id is masked to 7 bits and reused as the
24-bit NetID.  `sendConfigured` records whether sendToGatewayFn is not None. -/
def mkLoRaMac (networkID : Nat) (sendConfigured : Bool) : MacState :=
  ⟨networkID &&& 0x7F, networkID &&& 0x7F, sendConfigured, [], []⟩

/-- LoRaMac.registerEndDevice, integer-identifier path (the byte-list
normalization/validation paths are not under proof here). -/
def registerEndDevice (st : MacState) (appEUI devEUI : Nat)
    (appKey : List Nat) : MacState :=
  { st with euiToDevMap :=
      mapInsert st.euiToDevMap (appEUI, devEUI) (mkEndDevice appEUI devEUI appKey) }

/-- A Python call result: a returned value (`ok`, carrying the returned
integer or None) or an uncaught exception (`exn`). -/
inductive PyRet : Type
  | ok : Option Int → PyRet
  | exn : PyRet
deriving DecidableEq

/-- The txpk JSON descriptor built in LoRaMac.doDownlinkToDev. -/
structure TxPkt where
  freq : ℚ
  datr : String
  codr : String
  tmst : Int
  rfch : Nat
  powe : Nat
  modu : String
  ipol : Bool
  size : Nat
  data : List Nat
deriving DecidableEq

/-- Result of LoRaMac.doDownlinkToDev: the device state on exit (mutations
before an exception persist), the Python return value, and the send to the
gateway if one happened. -/
structure DlOut where
  dev : EndDevice
  ret : PyRet
  sent : Option (Nat × TxPkt)
deriving DecidableEq

/-- LoRaMac.doDownlinkToDev.  Exceptions modelled as `exn`: the
AssertionError inside getRxWindow1DataRate, the StopIteration from
`next(iter(set()))` when no gateway is bound, and the TypeError from
formatting a None devAddr with %x in the log call.  In the no-sender
branch the source only logs an error; the return value is Python None,
exactly as in the successful-send branch. -/
def doDownlinkToDev (sendConfigured : Bool) (dev : EndDevice)
    (eouTimestamp : Int) (ulChannel : ℤ)
    (ulDatarate ulCodingrate : String) : DlOut :=
  match dev.dlQueue with
  | [] => ⟨dev, PyRet.ok (some 0), none⟩
  | dlMsg :: rest =>
    let dev1 : EndDevice := { dev with dlQueue := rest }
    let delayUsec := getRxWindowDelayUsec dev1 dlMsg.rxWindow
    let dlTimestamp : Int := eouTimestamp + (delayUsec : Int)
    let rf : Option (ℚ × String × String) :=
      if dlMsg.rxWindow = RX_WINDOW_1 ∨ dlMsg.rxWindow = JOIN_ACCEPT_WINDOW_1 then
        match getRxWindow1DataRate ulDatarate with
        | none => none
        | some datr => some (getRxWindow1Freq ulChannel, datr, ulCodingrate)
      else
        some (dev1.rx2FreqMHz, dev1.rx2Datarate, dev1.rx2Codingrate)
    match rf with
    | none => ⟨dev1, PyRet.exn, none⟩
    | some (freq, datr, codr) =>
      let pkt : TxPkt :=
        ⟨freq, datr, codr, dlTimestamp, 0, 20, dev1.dlModulation, dev1.dlIpol,
         dlMsg.payloadSize, dlMsg.payloadData⟩
      match dev1.gateways with
      | [] => ⟨dev1, PyRet.exn, none⟩
      | gw :: _ =>
        match dev1.devAddr with
        | none => ⟨dev1, PyRet.exn, none⟩
        | some _ =>
          if sendConfigured then ⟨dev1, PyRet.ok none, some (gw, pkt)⟩
          else ⟨dev1, PyRet.ok none, none⟩

/-- LoRaMac.genDevAddr retry loop: `rnd i` supplies the i-th
`random.randint(0, 2^25 - 1)` draw (reduced into range), `fuel` bounds the
unbounded while loop. -/
def genDevAddrAux (networkID : Nat) (addrMap : List (Nat × (Nat × Nat)))
    (rnd : Nat → Nat) : Nat → Nat → Option Nat
  | _, 0 => none
  | i, fuel + 1 =>
    let networkAddr := rnd i % (1 <<< 25)
    let devAddr := (networkID <<< 25) ||| networkAddr
    if (mapGet addrMap devAddr).isSome then
      genDevAddrAux networkID addrMap rnd (i + 1) fuel
    else
      some devAddr

/-- LoRaMac.genDevAddr. -/
def genDevAddr (networkID : Nat) (addrMap : List (Nat × (Nat × Nat)))
    (rnd : Nat → Nat) (fuel : Nat) : Option Nat :=
  genDevAddrAux networkID addrMap rnd 0 fuel

/-- LoRaMac.handleJoinRequest.  The `if False and dev.joined` guard in the
source is dead code and never returns early.  `appNonceR` is the
`random.randint(0, 2^24 - 1)` draw (reduced into range).  Returns the
updated registry state and the mutated device; `none` only when the
address-generation fuel runs out (the source loops forever instead). -/
def handleJoinRequest (cmac e d : List Nat → List Nat → List Nat)
    (st : MacState) (dev : EndDevice) (devNonce : Nat)
    (rnd : Nat → Nat) (appNonceR : Nat) (fuel : Nat) :
    Option (MacState × EndDevice) :=
  match genDevAddr st.networkID st.addrToDevMap rnd fuel with
  | none => none
  | some devAddr =>
    let st1 : MacState :=
      { st with addrToDevMap :=
          mapInsert st.addrToDevMap devAddr (dev.appEUI, dev.devEUI) }
    let dev1 : EndDevice := { dev with devAddr := some devAddr }
    let appNonce := appNonceR % (1 <<< 24)
    match deriveSessionKey e dev1.appKey
            (sessionKeyBlock 0x01 appNonce st1.netID devNonce),
          deriveSessionKey e dev1.appKey
            (sessionKeyBlock 0x02 appNonce st1.netID devNonce) with
    | some nwkSKey, some appSKey =>
      let dev2 := setSessionKeys dev1 nwkSKey appSKey
      let mhdr : List Nat := [(MTYPE_JOIN_ACCEPT <<< 5) ||| MAJOR_VERSION_LORAWAN]
      let payload : List Nat :=
        [appNonce &&& 0xFF, (appNonce >>> 8) &&& 0xFF, (appNonce >>> 16) &&& 0xFF,
         st1.netID &&& 0xFF, (st1.netID >>> 8) &&& 0xFF, (st1.netID >>> 16) &&& 0xFF,
         devAddr &&& 0xFF, (devAddr >>> 8) &&& 0xFF,
         (devAddr >>> 16) &&& 0xFF, (devAddr >>> 24) &&& 0xFF,
         0, 0]
      let mic := computeJoinMic cmac dev2.appKey (mhdr ++ payload)
      match encryptJoinAccept d dev2.appKey (payload ++ mic) with
      | none => none
      | some bodyEncrypted =>
        let dev3 : EndDevice :=
          { dev2 with
            joined := true
            dlQueue := putDownlinkMsg dev2.dlQueue
              (mkDownlinkMessage (mhdr ++ bodyEncrypted) JOIN_ACCEPT_WINDOW_1) }
        some (st1, dev3)
    | _, _ => none

/-- The per-uplink gateway metadata dictionary (the base64 payload field is
kept as its decoded bytes since base64 is an external stdlib bijection). -/
structure Metadata where
  tmst : Int
  freq : ℚ
  datr : String
  codr : String
  rssi : Int
  data : List Nat
deriving DecidableEq

/-- The MACPayload slice phy[1:-4] of a PHY payload. -/
def joinMacPayload (phy : List Nat) : List Nat :=
  (phy.drop 1).take (phy.length - 5)

/-- Application EUI: first 8 bytes of the join-request MACPayload, LE. -/
def joinAppEUI (phy : List Nat) : Nat := leNat ((joinMacPayload phy).take 8)

/-- Device EUI: bytes 8..15 of the join-request MACPayload, LE. -/
def joinDevEUI (phy : List Nat) : Nat :=
  leNat (((joinMacPayload phy).drop 8).take 8)

/-- Device nonce: bytes 16..17 of the join-request MACPayload, LE. -/
def joinDevNonce (phy : List Nat) : Nat :=
  leNat (((joinMacPayload phy).drop 16).take 2)

/-- Result of LoRaMac.processRawRxPayload: the server state on exit
(mutations before an exception persist), the Python return value, and any
gateway send performed by the downlink step. -/
structure StepOut where
  st : MacState
  res : PyRet
  sent : Option (Nat × TxPkt)
deriving DecidableEq

/-- LoRaMac.processRawRxPayload.  Slicing follows Python semantics:
macPayload = phy[1:-4], mic = phy[-4:].  `exn` models the IndexError on an
empty payload, the struct.error when the MACPayload is too short for the
three unpacks, and any exception propagating out of handleJoinRequest or
doDownlinkToDev.  On the device-unknown path the source returns -1, on a
MIC mismatch -2; after a handled join it falls off the end (returns None). -/
def processRawRxPayload (cmac e d : List Nat → List Nat → List Nat)
    (rnd : Nat → Nat) (appNonceR fuel : Nat)
    (st : MacState) (gatewayMacAddr : Nat) (md : Metadata) : StepOut :=
  let ulChannel := getUplinkChannelFromFreq md.datr md.freq
  match md.data with
  | [] => ⟨st, PyRet.exn, none⟩
  | mhdrByte :: _ =>
    let phy := md.data
    let mic := phy.drop (phy.length - 4)
    let mtype := (mhdrByte >>> 5) &&& 7
    if mtype = MTYPE_JOIN_REQUEST then
      if (joinMacPayload phy).length < 18 then ⟨st, PyRet.exn, none⟩
      else
        let appEUI := joinAppEUI phy
        let devEUI := joinDevEUI phy
        let devNonce := joinDevNonce phy
        match mapGet st.euiToDevMap (appEUI, devEUI) with
        | none => ⟨st, PyRet.ok (some (-1)), none⟩
        | some dev =>
          if mic ≠ computeJoinMic cmac dev.appKey (phy.take (phy.length - 4)) then
            ⟨st, PyRet.ok (some (-2)), none⟩
          else
            match handleJoinRequest cmac e d st dev devNonce rnd appNonceR fuel with
            | none => ⟨st, PyRet.exn, none⟩
            | some (st1, dev1) =>
              let dev2 : EndDevice :=
                { dev1 with gateways := setAdd dev1.gateways gatewayMacAddr }
              let st2 : MacState :=
                { st1 with euiToDevMap :=
                    mapInsert st1.euiToDevMap (appEUI, devEUI) dev2 }
              let dl := doDownlinkToDev st2.sendConfigured dev2 md.tmst
                          ulChannel md.datr md.codr
              let st3 : MacState :=
                { st2 with euiToDevMap :=
                    mapInsert st2.euiToDevMap (appEUI, devEUI) dl.dev }
              match dl.ret with
              | PyRet.exn => ⟨st3, PyRet.exn, dl.sent⟩
              | _ => ⟨st3, PyRet.ok none, dl.sent⟩
    else if mtype = MTYPE_UNCONFIRMED_DATA_UP then
      ⟨st, PyRet.ok (some (-1)), none⟩
    else
      ⟨st, PyRet.ok (some (-1)), none⟩

/-- The identity block transform: a legitimate (if degenerate) instance of
a mutually inverse cipher pair, used to instantiate witnesses. -/
def idCipher : List Nat → List Nat → List Nat := fun _ b => b

/-- A constant CMAC used to instantiate witnesses. -/
def trivCmac : List Nat → List Nat → List Nat := fun _ _ => [0, 0, 0, 0]

/-- A constant randomness stream used to instantiate witnesses. -/
def zeroRnd : Nat → Nat := fun _ => 0

def stEmpty : MacState := mkLoRaMac 0 false

def stOneDev : MacState := registerEndDevice stEmpty 0 0 []

def mdJoinZeros : Metadata := ⟨0, 9023/10, "SF10BW125", "4/5", 0, List.replicate 23 0⟩

def mdJoinBadMic : Metadata :=
  ⟨0, 9023/10, "SF10BW125", "4/5", 0, List.replicate 19 0 ++ [9, 9, 9, 9]⟩

def mdJoinSF7 : Metadata := ⟨0, 9023/10, "SF7BW125", "4/5", 0, List.replicate 23 0⟩

def dev9 : EndDevice :=
  { mkEndDevice 0 0 [] with
    devAddr := some 3
    gateways := [7]
    joined := true
    dlQueue := [mkDownlinkMessage [1, 2, 3] RX_WINDOW_2] }

def devJoined5 : EndDevice :=
  { mkEndDevice 0 0 [] with devAddr := some 5, joined := true }

def stRejoin : MacState := ⟨0, 0, false, [((0, 0), devJoined5)], [(5, (0, 0))]⟩

def devJoinedAfter : EndDevice :=
  { mkEndDevice 0 0 [] with
    devAddr := some 0
    nwkSKey := [1, 0, 0, 0, 0, 0, 0, 0, 0, 0, 0, 0, 0, 0, 0, 0]
    appSKey := [2, 0, 0, 0, 0, 0, 0, 0, 0, 0, 0, 0, 0, 0, 0, 0]
    joined := true
    dlQueue := [⟨17, 3, [32, 0, 0, 0, 0, 0, 0, 0, 0, 0, 0, 0, 0, 0, 0, 0, 0]⟩] }

def stRejoinAfter : MacState :=
  ⟨0, 0, false, [((0, 0), devJoined5)], [(5, (0, 0)), (0, (0, 0))]⟩

theorem sessionKeyBlock_length (pfx a n d : Nat) :
    (sessionKeyBlock pfx a n d).length = 16 := rfl

theorem ecbChunks_nil (f : List Nat → List Nat) (fuel : Nat) :
    ecbChunks f fuel [] = [] := by
  cases fuel <;> rfl

theorem ecbChunks_congr (f : List Nat → List Nat) :
    ∀ (fuel₁ fuel₂ : Nat) (l : List Nat), l.length ≤ fuel₁ → l.length ≤ fuel₂ →
      ecbChunks f fuel₁ l = ecbChunks f fuel₂ l := by
  intro fuel₁
  induction fuel₁ with
  | zero =>
    intro fuel₂ l h1 _
    have : l = [] := List.eq_nil_of_length_eq_zero (by omega)
    subst this
    rw [ecbChunks_nil, ecbChunks_nil]
  | succ fuel ih =>
    intro fuel₂ l h1 h2
    cases l with
    | nil => rw [ecbChunks_nil, ecbChunks_nil]
    | cons b t =>
      cases fuel₂ with
      | zero => simp at h2
      | succ fuel₂ =>
        rw [ecbChunks, ecbChunks]
        have hd : ((b :: t).drop 16).length ≤ fuel := by
          simp at h1 ⊢
          omega
        have hd2 : ((b :: t).drop 16).length ≤ fuel₂ := by
          simp at h2 ⊢
          omega
        rw [ih fuel₂ ((b :: t).drop 16) hd hd2]

theorem ecbMap_nil (f : List Nat → List Nat) : ecbMap f [] = [] := rfl

theorem ecbMap_ne_nil (f : List Nat → List Nat) (l : List Nat) (h : l ≠ []) :
    ecbMap f l = f (l.take 16) ++ ecbMap f (l.drop 16) := by
  cases l with
  | nil => exact absurd rfl h
  | cons b t =>
    rw [ecbMap, List.length_cons, ecbChunks, ecbMap]
    rw [ecbChunks_congr f t.length ((b :: t).drop 16).length ((b :: t).drop 16)
          (by simp) (le_refl _)]

/-- ECB on a single 16-byte block is just the block transform. -/
theorem ecbMap_single (f : List Nat → List Nat) (l : List Nat)
    (h : l.length = 16) : ecbMap f l = f l := by
  have hne : l ≠ [] := by
    intro hl; rw [hl] at h; simp at h
  rw [ecbMap_ne_nil f l hne]
  have ht : l.take 16 = l := List.take_of_length_le (by omega)
  have hd : l.drop 16 = [] := List.drop_eq_nil_of_le (by omega)
  rw [ht, hd, ecbMap_nil]
  simp

theorem ecbMap_append (f : List Nat → List Nat) (a b : List Nat)
    (ha : a.length = 16) : ecbMap f (a ++ b) = f a ++ ecbMap f b := by
  have hne : a ++ b ≠ [] := by
    intro h
    have := congrArg List.length h
    simp [ha] at this
  rw [ecbMap_ne_nil f _ hne]
  have ht : (a ++ b).take 16 = a := by
    rw [← ha, List.take_left]
  have hd : (a ++ b).drop 16 = b := by
    rw [← ha, List.drop_left]
  rw [ht, hd]

/-- Device-side inversion: ECB-encrypting the ECB-decryption of a
block-aligned buffer gives the buffer back. -/
theorem ecb_roundtrip (e d : List Nat → List Nat → List Nat)
    (good : GoodCipher e d) (k : List Nat) :
    ∀ n (l : List Nat), l.length = n → n % 16 = 0 →
      ecbMap (e k) (ecbMap (d k) l) = l := by
  intro n
  induction n using Nat.strong_induction_on with
  | _ n ih =>
    intro l hl hn
    by_cases hnil : l = []
    · subst hnil
      simp [ecbMap_nil]
    · have hlen : 16 ≤ l.length := by
        rcases Nat.lt_or_ge l.length 16 with h | h
        · exfalso
          have : l.length % 16 = l.length := Nat.mod_eq_of_lt h
          have hpos : l.length ≠ 0 := by
            intro h0; exact hnil (List.eq_nil_of_length_eq_zero h0)
          omega
        · exact h
      have htake : (l.take 16).length = 16 := by
        simp [List.length_take]
        omega
      have hblock := good k (l.take 16) htake
      rw [ecbMap_ne_nil (d k) l hnil]
      rw [ecbMap_append (e k) _ _ hblock.2.1]
      rw [hblock.2.2.2]
      have hdroplen : (l.drop 16).length = l.length - 16 := List.length_drop 16 l
      have hrec : ecbMap (e k) (ecbMap (d k) (l.drop 16)) = l.drop 16 := by
        by_cases h16 : n = 0
        · exfalso
          rw [h16] at hl
          exact hnil (List.eq_nil_of_length_eq_zero hl)
        · exact ih (n - 16) (by omega) (l.drop 16) (by omega) (by omega)
      rw [hrec, List.take_append_drop]

theorem padRaw_aligned (b : List Nat) (h : b.length % 16 = 0) : padRaw b = b := by
  rw [padRaw]
  simp [CRYPTO_BLOCK_SIZE, h]

theorem padToBlockSize_aligned (b : List Nat) (h : b.length % 16 = 0) :
    padToBlockSize b = some b := by
  rw [padToBlockSize, padRaw_aligned b h]
  simp [CRYPTO_BLOCK_SIZE, h]

theorem padRaw_short (b : List Nat) (h0 : b.length % 16 ≠ 0) :
    padRaw b = b ++ List.replicate (16 - b.length) 0 := by
  rw [padRaw]
  simp [CRYPTO_BLOCK_SIZE, h0]

theorem padRaw_short_length (b : List Nat) (h0 : b.length % 16 ≠ 0)
    (h1 : b.length < 16) : (padRaw b).length = 16 := by
  rw [padRaw_short b h0]
  simp
  omega

theorem padToBlockSize_short (b : List Nat) (h0 : b.length % 16 ≠ 0)
    (h1 : b.length < 16) :
    padToBlockSize b = some (b ++ List.replicate (16 - b.length) 0) := by
  rw [padToBlockSize, padRaw_short b h0]
  have hl : (b ++ List.replicate (16 - b.length) 0).length % 16 = 0 := by
    simp
    omega
  simp [CRYPTO_BLOCK_SIZE, hl]
  omega

theorem idCipher_good : GoodCipher idCipher idCipher :=
  fun _ _ h => ⟨h, h, rfl, rfl⟩

/-- C2: padToBlockSize leaves block-aligned buffers unchanged and
zero-pads shorter buffers to 16 bytes; but the pad count is computed as
`16 - len` rather than `16 - len % 16`, so for a 17-byte buffer no
padding is added and the function's own block-alignment assertion fails
(`none`), contradicting the claim that the assertion never fires. -/
theorem padToBlockSize_spec :
    (∀ b : List Nat, b.length % 16 = 0 → padToBlockSize b = some b) ∧
    (∀ b : List Nat, b.length < 16 → b.length % 16 ≠ 0 →
        padToBlockSize b = some (b ++ List.replicate (16 - b.length) 0)) ∧
    padToBlockSize (List.replicate 17 0) = none ∧
    padRaw (List.replicate 17 0) = List.replicate 17 0 := by
  refine ⟨fun b h => padToBlockSize_aligned b h,
          fun b h1 h0 => padToBlockSize_short b h0 h1, ?_, ?_⟩
  · decide
  · decide

/-- C2 witness: concrete aligned and short inputs. -/
theorem padToBlockSize_spec_witness :
    padToBlockSize (List.replicate 32 7) = some (List.replicate 32 7) ∧
    padToBlockSize [1, 2, 3] =
      some [1, 2, 3, 0, 0, 0, 0, 0, 0, 0, 0, 0, 0, 0, 0, 0] := by
  constructor
  · exact padToBlockSize_spec.1 (List.replicate 32 7) (by decide)
  · exact (padToBlockSize_spec.2.1 [1, 2, 3] (by decide) (by decide)).trans
      (by decide)

/-- C1: encryptJoinAccept is ECB-decryption (under the root key) of the
zero-padded plaintext, and ECB-encrypting its output recovers the
plaintext (exactly for block-aligned plaintexts, as a prefix after
stripping the added zero padding otherwise) — but only on the inputs
that survive the padding bug: a 17-byte plaintext makes the padding
assertion fail, so encryptJoinAccept produces no ciphertext at all there. -/
theorem encryptJoinAccept_spec (e d : List Nat → List Nat → List Nat)
    (k pt : List Nat) (good : GoodCipher e d)
    (hpt : pt.length % 16 = 0 ∨ pt.length < 16) :
    (∃ ct, encryptJoinAccept d k pt = some ct ∧
        ct = ecbMap (d k) (padRaw pt) ∧
        (ecbMap (e k) ct).take pt.length = pt ∧
        (pt.length % 16 = 0 → ecbMap (e k) ct = pt)) ∧
    encryptJoinAccept d k (List.replicate 17 1) = none := by
  constructor
  · by_cases hmod : pt.length % 16 = 0
    · refine ⟨ecbMap (d k) pt, ?_, ?_, ?_, ?_⟩
      · rw [encryptJoinAccept, padToBlockSize_aligned pt hmod]
        rfl
      · rw [padRaw_aligned pt hmod]
      · rw [ecb_roundtrip e d good k pt.length pt rfl hmod, List.take_length]
      · intro _
        exact ecb_roundtrip e d good k pt.length pt rfl hmod
    · have hlt : pt.length < 16 := by
        rcases hpt with h | h
        · exact absurd h hmod
        · exact h
      refine ⟨ecbMap (d k) (padRaw pt), ?_, rfl, ?_, fun h => absurd h hmod⟩
      · rw [encryptJoinAccept, padToBlockSize_short pt hmod hlt,
            ← padRaw_short pt hmod]
        rfl
      · have hlen : (padRaw pt).length = 16 := padRaw_short_length pt hmod hlt
        rw [ecb_roundtrip e d good k 16 (padRaw pt) hlen (by decide)]
        rw [padRaw_short pt hmod, List.take_left]
  · have hnone : padToBlockSize (List.replicate 17 1) = none := by decide
    rw [encryptJoinAccept, hnone]
    rfl

/-- C1 witness: the identity cipher pair and a block-aligned plaintext. -/
theorem encryptJoinAccept_spec_witness :
    (∃ ct, encryptJoinAccept idCipher [] (List.replicate 16 3) = some ct ∧
        ct = ecbMap (idCipher []) (padRaw (List.replicate 16 3)) ∧
        (ecbMap (idCipher []) ct).take (List.replicate 16 3).length =
          List.replicate 16 3 ∧
        ((List.replicate 16 3).length % 16 = 0 →
          ecbMap (idCipher []) ct = List.replicate 16 3)) ∧
    encryptJoinAccept idCipher [] (List.replicate 17 1) = none :=
  encryptJoinAccept_spec idCipher idCipher [] (List.replicate 16 3)
    idCipher_good (Or.inl (by decide))

/-- C8: the downlink queue (a deque with maxlen 32) never exceeds 32
entries; appending onto a full queue succeeds and evicts exactly the
oldest entry; pushing messages 1..33 into an empty queue leaves
2..33 in FIFO order. -/
theorem putDownlinkMsg_spec :
    (∀ (q : List DownlinkMessage) (m : DownlinkMessage),
        (putDownlinkMsg q m).length ≤ DOWNLINK_QUEUE_MAX_SIZE) ∧
    (∀ (q : List DownlinkMessage) (m : DownlinkMessage),
        q.length = DOWNLINK_QUEUE_MAX_SIZE →
        putDownlinkMsg q m = q.drop 1 ++ [m]) ∧
    (List.range' 1 33).foldl putDownlinkMsg ([] : List Nat) =
      List.range' 2 32 := by
  refine ⟨?_, ?_, by decide⟩
  · intro q m
    simp [putDownlinkMsg, DOWNLINK_QUEUE_MAX_SIZE]
    omega
  · intro q m h
    have hq : q.length = 32 := h
    simp only [putDownlinkMsg]
    have hlen : (q ++ [m]).length - DOWNLINK_QUEUE_MAX_SIZE = 1 := by
      simp [hq, DOWNLINK_QUEUE_MAX_SIZE]
    rw [hlen, List.drop_append_of_le_length (by omega)]

/-- C8 witness: a concrete full queue of 32 entries. -/
theorem putDownlinkMsg_spec_witness :
    putDownlinkMsg (List.replicate 32 (mkDownlinkMessage [] 1))
        (mkDownlinkMessage [5] 2) =
      (List.replicate 32 (mkDownlinkMessage [] 1)).drop 1 ++
        [mkDownlinkMessage [5] 2] :=
  putDownlinkMsg_spec.2.1 (List.replicate 32 (mkDownlinkMessage [] 1))
    (mkDownlinkMessage [5] 2) (by decide)

theorem ratFloor_eq_intFloor (q : ℚ) : q.floor = ⌊q⌋ := by
  rw [Rat.floor_def', Rat.floor_def]

theorem pyRound_eq_of_nonneg (q : ℚ) (z : ℤ) (h0 : 0 ≤ q)
    (h1 : (z : ℚ) ≤ q + 1/2) (h2 : q + 1/2 < (z : ℚ) + 1) :
    pyRound q = z := by
  rw [pyRound, if_pos h0, ratFloor_eq_intFloor]
  exact Int.floor_eq_iff.mpr ⟨h1, h2⟩

theorem pyRound_eq_of_neg (q : ℚ) (z : ℤ) (h0 : ¬ 0 ≤ q)
    (h1 : ((-z : ℤ) : ℚ) ≤ -q + 1/2) (h2 : -q + 1/2 < ((-z : ℤ) : ℚ) + 1) :
    pyRound q = z := by
  rw [pyRound, if_neg h0, ratFloor_eq_intFloor]
  rw [Int.floor_eq_iff.mpr ⟨h1, h2⟩]
  exact neg_neg z

/-- C7: channel arithmetic — the 500 kHz plan (8 channels from 903.0 MHz
spaced 1.6 MHz) is selected when the datarate contains "500", otherwise
the 125 kHz plan (64 channels from 902.3 MHz spaced 0.2 MHz); the result
is round((f - lowest)/spacing) mod numChannels, always in range (modulo
wrap instead of an error); and the three concrete spec values hold, plus
a genuinely out-of-range frequency (900 MHz) wrapping to channel 52. -/
theorem getUplinkChannelFromFreq_spec :
    (∀ (dr : String) (f : ℚ), hasSub500 dr = true →
        getUplinkChannelFromFreq dr f =
          (pyRound ((f - UPSTREAM_BW500_LOWEST_FREQ_MHZ) /
              UPSTREAM_BW500_SPACING_MHZ)).emod UPSTREAM_BW500_NUM_CHAN ∧
        0 ≤ getUplinkChannelFromFreq dr f ∧
        getUplinkChannelFromFreq dr f < UPSTREAM_BW500_NUM_CHAN) ∧
    (∀ (dr : String) (f : ℚ), hasSub500 dr = false →
        getUplinkChannelFromFreq dr f =
          (pyRound ((f - UPSTREAM_BW125_LOWEST_FREQ_MHZ) /
              UPSTREAM_BW125_SPACING_MHZ)).emod UPSTREAM_BW125_NUM_CHAN ∧
        0 ≤ getUplinkChannelFromFreq dr f ∧
        getUplinkChannelFromFreq dr f < UPSTREAM_BW125_NUM_CHAN) ∧
    getUplinkChannelFromFreq "SF10BW125" (9023/10) = 0 ∧
    getUplinkChannelFromFreq "SF10BW125" (9025/10) = 1 ∧
    getUplinkChannelFromFreq "SF10BW500" 903 = 0 ∧
    getUplinkChannelFromFreq "SF10BW125" 900 = 52 := by
  have h125 : ∀ f : ℚ, getUplinkChannelFromFreq "SF10BW125" f =
      (pyRound ((f - UPSTREAM_BW125_LOWEST_FREQ_MHZ) /
          UPSTREAM_BW125_SPACING_MHZ)).emod UPSTREAM_BW125_NUM_CHAN := by
    intro f
    rw [getUplinkChannelFromFreq, if_neg]
    intro hc
    exact absurd hc (by decide)
  refine ⟨?_, ?_, ?_, ?_, ?_, ?_⟩
  · intro dr f h
    rw [getUplinkChannelFromFreq, if_pos h]
    refine ⟨rfl, Int.emod_nonneg _ (by decide), Int.emod_lt_of_pos _ (by decide)⟩
  · intro dr f h
    rw [getUplinkChannelFromFreq, if_neg (by simp [h])]
    refine ⟨rfl, Int.emod_nonneg _ (by decide), Int.emod_lt_of_pos _ (by decide)⟩
  · rw [h125]
    have ha : ((9023/10 : ℚ) - UPSTREAM_BW125_LOWEST_FREQ_MHZ) /
        UPSTREAM_BW125_SPACING_MHZ = 0 := by
      rw [UPSTREAM_BW125_LOWEST_FREQ_MHZ, UPSTREAM_BW125_SPACING_MHZ]
      norm_num
    rw [ha, pyRound_eq_of_nonneg 0 0 le_rfl (by norm_num) (by norm_num)]
    decide
  · rw [h125]
    have ha : ((9025/10 : ℚ) - UPSTREAM_BW125_LOWEST_FREQ_MHZ) /
        UPSTREAM_BW125_SPACING_MHZ = 1 := by
      rw [UPSTREAM_BW125_LOWEST_FREQ_MHZ, UPSTREAM_BW125_SPACING_MHZ]
      norm_num
    rw [ha, pyRound_eq_of_nonneg 1 1 (by norm_num) (by norm_num) (by norm_num)]
    decide
  · rw [getUplinkChannelFromFreq, if_pos (by decide)]
    have ha : ((903 : ℚ) - UPSTREAM_BW500_LOWEST_FREQ_MHZ) /
        UPSTREAM_BW500_SPACING_MHZ = 0 := by
      rw [UPSTREAM_BW500_LOWEST_FREQ_MHZ, UPSTREAM_BW500_SPACING_MHZ]
      norm_num
    rw [ha, pyRound_eq_of_nonneg 0 0 le_rfl (by norm_num) (by norm_num)]
    decide
  · rw [h125]
    have ha : ((900 : ℚ) - UPSTREAM_BW125_LOWEST_FREQ_MHZ) /
        UPSTREAM_BW125_SPACING_MHZ = -23/2 := by
      rw [UPSTREAM_BW125_LOWEST_FREQ_MHZ, UPSTREAM_BW125_SPACING_MHZ]
      norm_num
    rw [ha, pyRound_eq_of_neg (-23/2) (-12) (by norm_num) (by norm_num)
          (by norm_num)]
    decide

/-- C7 witness: both plans exercised at concrete datarates/frequencies. -/
theorem getUplinkChannelFromFreq_spec_witness :
    (getUplinkChannelFromFreq "SF10BW500" 910 =
        (pyRound ((910 - UPSTREAM_BW500_LOWEST_FREQ_MHZ) /
            UPSTREAM_BW500_SPACING_MHZ)).emod UPSTREAM_BW500_NUM_CHAN ∧
      0 ≤ getUplinkChannelFromFreq "SF10BW500" 910 ∧
      getUplinkChannelFromFreq "SF10BW500" 910 < UPSTREAM_BW500_NUM_CHAN) ∧
    (getUplinkChannelFromFreq "SF8BW125" 900 =
        (pyRound ((900 - UPSTREAM_BW125_LOWEST_FREQ_MHZ) /
            UPSTREAM_BW125_SPACING_MHZ)).emod UPSTREAM_BW125_NUM_CHAN ∧
      0 ≤ getUplinkChannelFromFreq "SF8BW125" 900 ∧
      getUplinkChannelFromFreq "SF8BW125" 900 < UPSTREAM_BW125_NUM_CHAN) :=
  ⟨getUplinkChannelFromFreq_spec.1 "SF10BW500" 910 (by decide),
   getUplinkChannelFromFreq_spec.2.1 "SF8BW125" 900 (by decide)⟩

theorem mapGet_mapInsert {α β : Type} [DecidableEq α] (m : List (α × β))
    (k0 k : α) (v0 : β) :
    mapGet (mapInsert m k0 v0) k = if k0 = k then some v0 else mapGet m k := by
  induction m with
  | nil => simp [mapInsert, mapGet]
  | cons p t ih =>
    obtain ⟨k', v'⟩ := p
    by_cases h : k' = k0
    · subst h
      by_cases hk : k' = k <;> simp [mapInsert, mapGet, hk]
    · by_cases hk : k' = k
      · subst hk
        have hne : ¬ k0 = k' := fun hh => h hh.symm
        simp [mapInsert, mapGet, h, hne]
      · simp [mapInsert, mapGet, h, hk, ih]

theorem mapInsert_length_of_get_none {α β : Type} [DecidableEq α]
    (m : List (α × β)) (k : α) (v : β) (h : mapGet m k = none) :
    (mapInsert m k v).length = m.length + 1 := by
  induction m with
  | nil => rfl
  | cons p t ih =>
    obtain ⟨k', v'⟩ := p
    by_cases hk : k' = k
    · rw [mapGet, if_pos hk] at h
      exact absurd h (by simp)
    · rw [mapGet, if_neg hk] at h
      simp [mapInsert, hk, ih h]

theorem mapInsert_length_ge {α β : Type} [DecidableEq α]
    (m : List (α × β)) (k : α) (v : β) :
    m.length ≤ (mapInsert m k v).length := by
  induction m with
  | nil => simp [mapInsert]
  | cons p t ih =>
    obtain ⟨k', v'⟩ := p
    by_cases hk : k' = k
    · simp [mapInsert, hk]
    · simp [mapInsert, hk]
      omega

theorem mem_keys_mapInsert {α β : Type} [DecidableEq α]
    (m : List (α × β)) (k a : α) (v : β) :
    a ∈ (mapInsert m k v).map Prod.fst ↔ a ∈ m.map Prod.fst ∨ a = k := by
  induction m with
  | nil => simp [mapInsert]
  | cons p t ih =>
    obtain ⟨k', v'⟩ := p
    by_cases hk : k' = k
    · subst hk
      simp [mapInsert]
      tauto
    · simp [mapInsert, hk, ih]
      tauto

theorem keysNodup_mapInsert {α β : Type} [DecidableEq α]
    (m : List (α × β)) (k : α) (v : β) (h : keysNodup m) :
    keysNodup (mapInsert m k v) := by
  induction m with
  | nil => simp [mapInsert, keysNodup]
  | cons p t ih =>
    obtain ⟨k', v'⟩ := p
    rw [keysNodup, List.map_cons, List.nodup_cons] at h
    by_cases hk : k' = k
    · subst hk
      have hins : mapInsert ((k', v') :: t) k' v = (k', v) :: t := by
        simp [mapInsert]
      rw [keysNodup, hins, List.map_cons, List.nodup_cons]
      exact h
    · rw [keysNodup]
      simp only [mapInsert, if_neg hk, List.map_cons, List.nodup_cons]
      refine ⟨?_, ih h.2⟩
      intro hmem
      rcases (mem_keys_mapInsert t k k' v).mp hmem with h1 | h1
      · exact h.1 h1
      · exact hk h1

theorem lor_shiftLeft_shiftRight (x a : Nat) (h : a < 2 ^ 25) :
    ((x <<< 25) ||| a) >>> 25 = x := by
  apply Nat.eq_of_testBit_eq
  intro i
  rw [Nat.testBit_shiftRight, Nat.testBit_lor, Nat.testBit_shiftLeft]
  have ha : a.testBit (25 + i) = false :=
    Nat.testBit_lt_two_pow
      (lt_of_lt_of_le h (Nat.pow_le_pow_right (by omega) (by omega)))
  have h1 : 25 + i ≥ 25 := Nat.le_add_right 25 i
  have h2 : 25 + i - 25 = i := by omega
  simp [ha, h1, h2]

theorem lor_shiftLeft_lt (x a : Nat) (hx : x < 2 ^ 7) (h : a < 2 ^ 25) :
    ((x <<< 25) ||| a) < 2 ^ 32 := by
  apply Nat.or_lt_two_pow
  · rw [Nat.shiftLeft_eq]
    calc x * 2 ^ 25 < 2 ^ 7 * 2 ^ 25 :=
          mul_lt_mul_of_pos_right hx (by norm_num)
      _ = 2 ^ 32 := by norm_num
  · exact lt_trans h (by norm_num)

theorem genDevAddrAux_some (nid : Nat) (m : List (Nat × (Nat × Nat)))
    (rnd : Nat → Nat) :
    ∀ (fuel i a : Nat), genDevAddrAux nid m rnd i fuel = some a →
      (∃ x, x < 2 ^ 25 ∧ a = (nid <<< 25) ||| x) ∧ mapGet m a = none := by
  intro fuel
  induction fuel with
  | zero =>
    intro i a h
    rw [genDevAddrAux] at h
    cases h
  | succ fuel ih =>
    intro i a h
    simp only [genDevAddrAux] at h
    by_cases hs : (mapGet m ((nid <<< 25) ||| (rnd i % (1 <<< 25)))).isSome = true
    · rw [if_pos hs] at h
      exact ih (i + 1) a h
    · rw [if_neg hs] at h
      cases h
      refine ⟨⟨rnd i % (1 <<< 25), ?_, rfl⟩, ?_⟩
      · rw [Nat.one_shiftLeft]
        exact Nat.mod_lt _ (by norm_num)
      · rw [← Option.not_isSome_iff_eq_none]
        exact hs

theorem deriveSessionKey_block (e : List Nat → List Nat → List Nat)
    (key blk : List Nat) (h : blk.length = 16) :
    deriveSessionKey e key blk = some (ecbMap (e key) blk) := by
  rw [deriveSessionKey, padToBlockSize_aligned blk (by rw [h])]
  rfl

/-- C5: whenever the genDevAddr retry loop returns, the returned address
has the server's 7-bit network identifier in its top 7 bits, fits in 32
bits, and is not yet a key of the address map; consequently
handleJoinRequest preserves the invariant that every key of the address
map has the network identifier in its top 7 bits (and keeps the keys
pairwise distinct, so no address maps to two sessions). -/
theorem genDevAddr_spec :
    (∀ (nid : Nat) (m : List (Nat × (Nat × Nat))) (rnd : Nat → Nat)
        (fuel i a : Nat), nid < 128 →
        genDevAddrAux nid m rnd i fuel = some a →
        a >>> 25 = nid ∧ a < 2 ^ 32 ∧ mapGet m a = none) ∧
    (∀ (cmac e d : List Nat → List Nat → List Nat) (st : MacState)
        (dev : EndDevice) (devNonce : Nat) (rnd : Nat → Nat)
        (appNonceR fuel : Nat) (st' : MacState) (dev' : EndDevice),
        handleJoinRequest cmac e d st dev devNonce rnd appNonceR fuel =
          some (st', dev') →
        st'.networkID = st.networkID ∧
        ((∀ k v, mapGet st.addrToDevMap k = some v → k >>> 25 = st.networkID) →
          ∀ k v, mapGet st'.addrToDevMap k = some v → k >>> 25 = st.networkID) ∧
        (keysNodup st.addrToDevMap → keysNodup st'.addrToDevMap)) := by
  have haux : ∀ (nid : Nat) (m : List (Nat × (Nat × Nat))) (rnd : Nat → Nat)
      (fuel i a : Nat), genDevAddrAux nid m rnd i fuel = some a →
      a >>> 25 = nid ∧ mapGet m a = none := by
    intro nid m rnd fuel i a h
    obtain ⟨⟨x, hx, rfl⟩, hnone⟩ := genDevAddrAux_some nid m rnd fuel i a h
    exact ⟨lor_shiftLeft_shiftRight nid x hx, hnone⟩
  constructor
  · intro nid m rnd fuel i a hnid h
    obtain ⟨⟨x, hx, rfl⟩, hnone⟩ := genDevAddrAux_some nid m rnd fuel i a h
    exact ⟨lor_shiftLeft_shiftRight nid x hx,
           lor_shiftLeft_lt nid x (by norm_num at hnid ⊢; omega) hx, hnone⟩
  · intro cmac e d st dev devNonce rnd appNonceR fuel st' dev' hj
    simp only [handleJoinRequest] at hj
    split at hj
    · cases hj
    · rename_i devAddr hg
      have hprops := haux st.networkID st.addrToDevMap rnd fuel 0 devAddr hg
      split at hj
      · split at hj
        · cases hj
        · cases hj
          refine ⟨rfl, ?_, ?_⟩
          · intro hinv k v hget
            rw [mapGet_mapInsert] at hget
            by_cases hk : devAddr = k
            · rw [← hk]
              exact hprops.1
            · rw [if_neg hk] at hget
              exact hinv k v hget
          · intro hnd
            exact keysNodup_mapInsert _ _ _ hnd
      · cases hj

/-- C5 witness: the loop at a concrete empty map, and handleJoinRequest
at a concrete already-joined device. -/
theorem genDevAddr_spec_witness :
    ((0 : Nat) >>> 25 = 0 ∧ (0 : Nat) < 2 ^ 32 ∧
      mapGet ([] : List (Nat × (Nat × Nat))) 0 = none) ∧
    (stRejoinAfter.networkID = stRejoin.networkID ∧
      ((∀ k v, mapGet stRejoin.addrToDevMap k = some v →
          k >>> 25 = stRejoin.networkID) →
        ∀ k v, mapGet stRejoinAfter.addrToDevMap k = some v →
          k >>> 25 = stRejoin.networkID) ∧
      (keysNodup stRejoin.addrToDevMap → keysNodup stRejoinAfter.addrToDevMap)) := by
  constructor
  · exact genDevAddr_spec.1 0 [] zeroRnd 1 0 0 (by norm_num) (by decide)
  · exact genDevAddr_spec.2 trivCmac idCipher idCipher stRejoin devJoined5 0
      zeroRnd 0 1 stRejoinAfter devJoinedAfter (by rfl)

/-- C4: deriveSessionKey applied to the key-derivation block built by
handleJoinRequest (prefix, AppNonce LE24, NetID LE24, DevNonce LE16,
7 zero bytes) is single-block AES-ECB encryption under the root key,
returns 16 bytes, and the 0x01 (network) and 0x02 (application) prefixes
yield different keys for identical nonce/NetID inputs. -/
theorem deriveSessionKey_spec (e d : List Nat → List Nat → List Nat)
    (k : List Nat) (appNonce netID devNonce : Nat) (good : GoodCipher e d) :
    deriveSessionKey e k (sessionKeyBlock 0x01 appNonce netID devNonce) =
      some (e k (sessionKeyBlock 0x01 appNonce netID devNonce)) ∧
    deriveSessionKey e k (sessionKeyBlock 0x02 appNonce netID devNonce) =
      some (e k (sessionKeyBlock 0x02 appNonce netID devNonce)) ∧
    (e k (sessionKeyBlock 0x01 appNonce netID devNonce)).length = 16 ∧
    (e k (sessionKeyBlock 0x02 appNonce netID devNonce)).length = 16 ∧
    deriveSessionKey e k (sessionKeyBlock 0x01 appNonce netID devNonce) ≠
      deriveSessionKey e k (sessionKeyBlock 0x02 appNonce netID devNonce) := by
  have h1 := sessionKeyBlock_length 0x01 appNonce netID devNonce
  have h2 := sessionKeyBlock_length 0x02 appNonce netID devNonce
  have g1 := good k _ h1
  have g2 := good k _ h2
  have e1 : deriveSessionKey e k (sessionKeyBlock 0x01 appNonce netID devNonce) =
      some (e k (sessionKeyBlock 0x01 appNonce netID devNonce)) := by
    rw [deriveSessionKey_block e k _ h1, ecbMap_single _ _ h1]
  have e2 : deriveSessionKey e k (sessionKeyBlock 0x02 appNonce netID devNonce) =
      some (e k (sessionKeyBlock 0x02 appNonce netID devNonce)) := by
    rw [deriveSessionKey_block e k _ h2, ecbMap_single _ _ h2]
  refine ⟨e1, e2, g1.1, g2.1, ?_⟩
  rw [e1, e2]
  intro heq
  have hkeys : e k (sessionKeyBlock 0x01 appNonce netID devNonce) =
      e k (sessionKeyBlock 0x02 appNonce netID devNonce) :=
    Option.some.inj heq
  have hblocks := congrArg (d k) hkeys
  rw [g1.2.2.1, g2.2.2.1] at hblocks
  have : (1 : Nat) = 2 := congrArg (fun l => l.headI) hblocks
  omega

/-- C4 witness: the identity cipher pair at concrete nonces. -/
theorem deriveSessionKey_spec_witness :
    deriveSessionKey idCipher [] (sessionKeyBlock 0x01 0 0 0) =
      some (idCipher [] (sessionKeyBlock 0x01 0 0 0)) ∧
    deriveSessionKey idCipher [] (sessionKeyBlock 0x02 0 0 0) =
      some (idCipher [] (sessionKeyBlock 0x02 0 0 0)) ∧
    (idCipher [] (sessionKeyBlock 0x01 0 0 0)).length = 16 ∧
    (idCipher [] (sessionKeyBlock 0x02 0 0 0)).length = 16 ∧
    deriveSessionKey idCipher [] (sessionKeyBlock 0x01 0 0 0) ≠
      deriveSessionKey idCipher [] (sessionKeyBlock 0x02 0 0 0) :=
  deriveSessionKey_spec idCipher idCipher [] 0 0 0 idCipher_good

/-- C9 counterexample: with a queued message, a bound gateway and an
assigned address but no sender configured, doDownlinkToDev returns Python
None — exactly the value the successful-send run returns — sends nothing,
and the popped descriptor is gone.  No NoSenderConfigured error value is
surfaced to the caller, refuting the claim as stated. -/
theorem doDownlinkToDev_noSender_counterexample :
    (doDownlinkToDev false dev9 0 0 "SF10BW125" "4/5").ret = PyRet.ok none ∧
    (doDownlinkToDev true dev9 0 0 "SF10BW125" "4/5").ret = PyRet.ok none ∧
    (doDownlinkToDev true dev9 0 0 "SF10BW125" "4/5").sent.isSome = true ∧
    (doDownlinkToDev false dev9 0 0 "SF10BW125" "4/5").sent = none ∧
    (doDownlinkToDev false dev9 0 0 "SF10BW125" "4/5").dev.dlQueue = [] :=
  ⟨rfl, rfl, rfl, rfl, rfl⟩

/-- C9 (amended): when a message has been popped and the descriptor built
but no sender is configured, doDownlinkToDev only logs: it returns Python
None (the same value as the successful-send path, so the caller cannot
tell), sends nothing, and the popped descriptor is dropped. -/
theorem doDownlinkToDev_noSender (dev : EndDevice) (m : DownlinkMessage)
    (rest : List DownlinkMessage) (eou : Int) (ch : ℤ)
    (ulDatarate codr : String)
    (hq : dev.dlQueue = m :: rest)
    (hok : m.rxWindow = RX_WINDOW_1 ∨ m.rxWindow = JOIN_ACCEPT_WINDOW_1 →
      ulDatarate = "SF10BW125")
    (hg : dev.gateways ≠ [])
    (ha : dev.devAddr.isSome = true) :
    (doDownlinkToDev false dev eou ch ulDatarate codr).ret = PyRet.ok none ∧
    (doDownlinkToDev false dev eou ch ulDatarate codr).ret =
      (doDownlinkToDev true dev eou ch ulDatarate codr).ret ∧
    (doDownlinkToDev false dev eou ch ulDatarate codr).sent = none ∧
    (doDownlinkToDev false dev eou ch ulDatarate codr).dev.dlQueue = rest := by
  obtain ⟨g, gs, hgw⟩ := List.exists_cons_of_ne_nil hg
  obtain ⟨a0, hda⟩ := Option.isSome_iff_exists.mp ha
  have hrf : ∀ sc : Bool, doDownlinkToDev sc dev eou ch ulDatarate codr =
      ⟨{ dev with dlQueue := rest }, PyRet.ok none,
        if sc then
          some (g,
            ⟨if m.rxWindow = RX_WINDOW_1 ∨ m.rxWindow = JOIN_ACCEPT_WINDOW_1 then
                getRxWindow1Freq ch else dev.rx2FreqMHz,
             if m.rxWindow = RX_WINDOW_1 ∨ m.rxWindow = JOIN_ACCEPT_WINDOW_1 then
                "SF10BW500" else dev.rx2Datarate,
             if m.rxWindow = RX_WINDOW_1 ∨ m.rxWindow = JOIN_ACCEPT_WINDOW_1 then
                codr else dev.rx2Codingrate,
             eou + (getRxWindowDelayUsec { dev with dlQueue := rest }
                m.rxWindow : Int),
             0, 20, dev.dlModulation, dev.dlIpol, m.payloadSize,
             m.payloadData⟩)
        else none⟩ := by
    intro sc
    simp only [doDownlinkToDev, hq]
    by_cases hw : m.rxWindow = RX_WINDOW_1 ∨ m.rxWindow = JOIN_ACCEPT_WINDOW_1
    · rw [hok hw] at *
      simp only [if_pos hw, getRxWindow1DataRate, if_pos rfl, hgw, hda]
      cases sc <;> rfl
    · simp only [if_neg hw, hgw, hda]
      cases sc <;> rfl
  rw [hrf false, hrf true]
  exact ⟨rfl, rfl, rfl, rfl⟩

/-- C9 witness: the concrete device dev9. -/
theorem doDownlinkToDev_noSender_witness :
    (doDownlinkToDev false dev9 0 0 "SF10BW500" "4/5").ret = PyRet.ok none ∧
    (doDownlinkToDev false dev9 0 0 "SF10BW500" "4/5").ret =
      (doDownlinkToDev true dev9 0 0 "SF10BW500" "4/5").ret ∧
    (doDownlinkToDev false dev9 0 0 "SF10BW500" "4/5").sent = none ∧
    (doDownlinkToDev false dev9 0 0 "SF10BW500" "4/5").dev.dlQueue = [] :=
  doDownlinkToDev_noSender dev9 (mkDownlinkMessage [1, 2, 3] RX_WINDOW_2) []
    0 0 "SF10BW500" "4/5" rfl (by intro h; exact absurd h (by decide))
    (by decide) rfl

/-- C6 counterexample: the claim says every uplink datarate other than
"SF10BW125" yields an explicit unsupported-configuration result and that
no assertion in the core is reachable from gateway-supplied metadata.  In
fact getRxWindow1DataRate "SF7BW125" raises AssertionError (none), and a
well-formed join-request whose gateway metadata names datarate
"SF7BW125" propagates that AssertionError out of processRawRxPayload
(res = exn) instead of any explicit error return. -/
theorem getRxWindow1DataRate_counterexample :
    getRxWindow1DataRate "SF7BW125" = none ∧
    (processRawRxPayload trivCmac idCipher idCipher zeroRnd 0 1 stOneDev 7
        mdJoinSF7).res = PyRet.exn :=
  ⟨rfl, rfl⟩

/-- C6 (amended): getRxWindow1DataRate maps "SF10BW125" to "SF10BW500"
and hard-asserts (AssertionError, not an explicit error value) on every
other uplink datarate; that assertion is reachable from gateway-supplied
uplink metadata whenever a window-1 downlink is pending. -/
theorem getRxWindow1DataRate_spec :
    getRxWindow1DataRate "SF10BW125" = some "SF10BW500" ∧
    (∀ s : String, s ≠ "SF10BW125" → getRxWindow1DataRate s = none) ∧
    (processRawRxPayload trivCmac idCipher idCipher zeroRnd 0 1 stOneDev 7
        mdJoinSF7).res = PyRet.exn := by
  refine ⟨rfl, ?_, rfl⟩
  intro s h
  rw [getRxWindow1DataRate, if_neg h]

/-- C6 witness: a concrete non-"SF10BW125" datarate. -/
theorem getRxWindow1DataRate_spec_witness :
    getRxWindow1DataRate "SF9BW500" = none :=
  getRxWindow1DataRate_spec.2.1 "SF9BW500" (by decide)

/-- C3: on a Join-Request frame, processRawRxPayload returns -1 (the
UnknownDevice error) when no registered session matches the parsed
(appEUI, devEUI) pair, and -2 (the BadIntegrityCode error) when the MIC
recomputed over all frame bytes except the trailing 4 differs from the
received trailing 4 bytes; in both cases the entire server state
(registries and every device session) is returned unchanged and nothing
is sent — no join runs, no gateway is bound, no downlink is queued. -/
theorem processRawRxPayload_joinErrors
    (cmac e d : List Nat → List Nat → List Nat) (rnd : Nat → Nat)
    (appNonceR fuel : Nat) (st : MacState) (gw : Nat) (md : Metadata)
    (b : Nat) (rest : List Nat)
    (hphy : md.data = b :: rest)
    (hty : (b >>> 5) &&& 7 = MTYPE_JOIN_REQUEST)
    (hlen : 23 ≤ md.data.length) :
    (mapGet st.euiToDevMap (joinAppEUI md.data, joinDevEUI md.data) = none →
      processRawRxPayload cmac e d rnd appNonceR fuel st gw md =
        ⟨st, PyRet.ok (some (-1)), none⟩) ∧
    (∀ dev : EndDevice,
      mapGet st.euiToDevMap (joinAppEUI md.data, joinDevEUI md.data) =
        some dev →
      md.data.drop (md.data.length - 4) ≠
        computeJoinMic cmac dev.appKey (md.data.take (md.data.length - 4)) →
      processRawRxPayload cmac e d rnd appNonceR fuel st gw md =
        ⟨st, PyRet.ok (some (-2)), none⟩) := by
  obtain ⟨tmst, freq, datr, codr, rssi, data⟩ := md
  simp only at hphy hlen
  subst hphy
  have hml : ¬ (joinMacPayload (b :: rest)).length < 18 := by
    rw [joinMacPayload]
    simp only [List.length_cons] at hlen ⊢
    simp
    omega
  constructor
  · intro hnone
    simp only [processRawRxPayload, if_pos hty, if_neg hml]
    simp only at hnone
    rw [hnone]
  · intro dev hdev hmic
    simp only [processRawRxPayload, if_pos hty, if_neg hml]
    simp only at hdev hmic
    simp only [hdev]
    rw [if_pos hmic]

/-- C3 witness: an unregistered device (return -1, state untouched) and a
registered device with a corrupted MIC (return -2, state untouched). -/
theorem processRawRxPayload_joinErrors_witness :
    processRawRxPayload trivCmac idCipher idCipher zeroRnd 0 1 stEmpty 7
        mdJoinZeros = ⟨stEmpty, PyRet.ok (some (-1)), none⟩ ∧
    processRawRxPayload trivCmac idCipher idCipher zeroRnd 0 1 stOneDev 7
        mdJoinBadMic = ⟨stOneDev, PyRet.ok (some (-2)), none⟩ := by
  constructor
  · exact (processRawRxPayload_joinErrors trivCmac idCipher idCipher zeroRnd
      0 1 stEmpty 7 mdJoinZeros 0 (List.replicate 22 0) (by rfl) (by decide)
      (by decide)).1 (by rfl)
  · exact (processRawRxPayload_joinErrors trivCmac idCipher idCipher zeroRnd
      0 1 stOneDev 7 mdJoinBadMic 0 (List.replicate 18 0 ++ [9, 9, 9, 9])
      (by rfl) (by decide) (by decide)).2 (mkEndDevice 0 0 []) (by rfl)
      (by decide)

theorem handleJoinRequest_effects (cmac e d : List Nat → List Nat → List Nat)
    (st : MacState) (dev : EndDevice) (devNonce : Nat) (rnd : Nat → Nat)
    (appNonceR fuel : Nat) (st' : MacState) (dev' : EndDevice)
    (hj : handleJoinRequest cmac e d st dev devNonce rnd appNonceR fuel =
      some (st', dev')) :
    ∃ a, dev'.devAddr = some a ∧ mapGet st.addrToDevMap a = none ∧
      st'.addrToDevMap = mapInsert st.addrToDevMap a (dev.appEUI, dev.devEUI) ∧
      st'.euiToDevMap = st.euiToDevMap := by
  simp only [handleJoinRequest] at hj
  split at hj
  · cases hj
  · rename_i devAddr hg
    have hprops :=
      genDevAddrAux_some st.networkID st.addrToDevMap rnd fuel 0 devAddr hg
    split at hj
    · split at hj
      · cases hj
      · cases hj
        exact ⟨devAddr, rfl, hprops.2, rfl, rfl⟩
    · cases hj

/-- C10: no operation removes an address-map entry.  When
handleJoinRequest runs for an already-joined device it stores a fresh
address for the same session while the old address stays mapped to it,
so both addresses are keys afterwards and the map has grown by exactly
one entry; and processRawRxPayload never shrinks the address map on any
of its paths. -/
theorem addrMap_monotone :
    (∀ (cmac e d : List Nat → List Nat → List Nat) (st : MacState)
        (dev : EndDevice) (devNonce : Nat) (rnd : Nat → Nat)
        (appNonceR fuel : Nat) (st' : MacState) (dev' : EndDevice) (a0 : Nat),
        handleJoinRequest cmac e d st dev devNonce rnd appNonceR fuel =
          some (st', dev') →
        dev.joined = true →
        dev.devAddr = some a0 →
        mapGet st.addrToDevMap a0 = some (dev.appEUI, dev.devEUI) →
        ∃ a1, dev'.devAddr = some a1 ∧ a1 ≠ a0 ∧
          mapGet st'.addrToDevMap a1 = some (dev.appEUI, dev.devEUI) ∧
          mapGet st'.addrToDevMap a0 = some (dev.appEUI, dev.devEUI) ∧
          st'.addrToDevMap.length = st.addrToDevMap.length + 1) ∧
    (∀ (cmac e d : List Nat → List Nat → List Nat) (rnd : Nat → Nat)
        (appNonceR fuel : Nat) (st : MacState) (gw : Nat) (md : Metadata),
        st.addrToDevMap.length ≤
          (processRawRxPayload cmac e d rnd appNonceR fuel st gw
            md).st.addrToDevMap.length) := by
  constructor
  · intro cmac e d st dev devNonce rnd appNonceR fuel st' dev' a0 hj _ _ hget
    obtain ⟨a, hda', hnone, hmap, _⟩ :=
      handleJoinRequest_effects cmac e d st dev devNonce rnd appNonceR fuel
        st' dev' hj
    have hne : a ≠ a0 := by
      intro h
      rw [h, hget] at hnone
      cases hnone
    refine ⟨a, hda', hne, ?_, ?_, ?_⟩
    · rw [hmap, mapGet_mapInsert, if_pos rfl]
    · rw [hmap, mapGet_mapInsert, if_neg hne, hget]
    · rw [hmap, mapInsert_length_of_get_none _ _ _ hnone]
  · intro cmac e d rnd appNonceR fuel st gw md
    simp only [processRawRxPayload]
    split
    · exact le_refl _
    · split
      · split
        · exact le_refl _
        · split
          · exact le_refl _
          · rename_i dev hdev
            split
            · exact le_refl _
            · split
              · exact le_refl _
              · rename_i st1 dev1 hj
                obtain ⟨a, _, hnone, hmap, _⟩ :=
                  handleJoinRequest_effects cmac e d st dev
                    (joinDevNonce md.data) rnd appNonceR fuel st1 dev1 hj
                split
                · show st.addrToDevMap.length ≤ st1.addrToDevMap.length
                  rw [hmap, mapInsert_length_of_get_none _ _ _ hnone]
                  omega
                · show st.addrToDevMap.length ≤ st1.addrToDevMap.length
                  rw [hmap, mapInsert_length_of_get_none _ _ _ hnone]
                  omega
      · split
        · exact le_refl _
        · exact le_refl _

/-- C10 witness: a concrete rejoin of an already-joined device, and a
concrete processRawRxPayload run. -/
theorem addrMap_monotone_witness :
    (∃ a1, devJoinedAfter.devAddr = some a1 ∧ a1 ≠ 5 ∧
      mapGet stRejoinAfter.addrToDevMap a1 =
        some (devJoined5.appEUI, devJoined5.devEUI) ∧
      mapGet stRejoinAfter.addrToDevMap 5 =
        some (devJoined5.appEUI, devJoined5.devEUI) ∧
      stRejoinAfter.addrToDevMap.length = stRejoin.addrToDevMap.length + 1) ∧
    stEmpty.addrToDevMap.length ≤
      (processRawRxPayload trivCmac idCipher idCipher zeroRnd 0 1 stEmpty 7
        mdJoinZeros).st.addrToDevMap.length := by
  constructor
  · exact addrMap_monotone.1 trivCmac idCipher idCipher stRejoin devJoined5 0
      zeroRnd 0 1 stRejoinAfter devJoinedAfter 5 (by rfl) rfl rfl (by rfl)
  · exact addrMap_monotone.2 trivCmac idCipher idCipher zeroRnd 0 1 stEmpty 7
      mdJoinZeros

end LoRaServer
